import Mathlib

/-!
Shallow embedding of the `loadbalancer` component of the `notes` repository
(`src/loadbalancer/main.go`), together with theorems settling the spec claims.

Time is modelled as an integer timestamp in nanoseconds (Go `time.Time` /
`time.Duration` granularity); `time.Since(t)` at instant `now` is `now - t`.
Backends are identified by their position in the pool's backend list; the Go
code's `*Backend` return values are modelled as `Option Nat` indices into the
(unchanged) backend list.  The `uint64` rotation cursor is a `Nat`, with the
`% 2 ^ 64` wrap written explicitly where the Go code does 64-bit arithmetic.
Network effects (the outcome of a health probe, whether a forward attempt
fails) are passed in as explicit oracle functions.
-/

namespace LoadBalancer

/-- One second of Go `time.Duration`, in nanoseconds. -/
def secondNs : Int := 1000000000

/-- Embeds the `Backend` struct: identity URL plus the mutable health fields
`Alive`, `FailureCount`, `LastCheck` (the mutex and the per-backend
`ReverseProxy` carry no data-model state). -/
structure Backend where
  url : String
  alive : Bool
  failureCount : Nat
  lastCheck : Int
deriving DecidableEq, Repr, Inhabited

/-- Embeds `Backend.SetAlive`: store the flag, increment `FailureCount` on
`false` / reset it on `true`, and stamp `LastCheck` with the current time. -/
def Backend.SetAlive (b : Backend) (alive : Bool) (now : Int) : Backend :=
  { b with
    alive := alive
    failureCount := if alive then 0 else b.failureCount + 1
    lastCheck := now }

/-- Embeds `Backend.IsAlive`: report `false` while `FailureCount > 3` and less
than 30 seconds have passed since `LastCheck`; otherwise report the raw
`Alive` flag. -/
def Backend.IsAlive (b : Backend) (now : Int) : Bool :=
  if b.failureCount > 3 ∧ now - b.lastCheck < 30 * secondNs then false
  else b.alive

/-- Embeds the `ServerPool` struct: the backend slice and the shared `uint64`
rotation cursor `current`. -/
structure ServerPool where
  backends : List Backend
  current : Nat
deriving Repr, Inhabited

/-- Embeds `ServerPool.NextIndex`: `int((current + 1) % uint64(len(backends)))`,
with the 64-bit wrap of `current + 1` made explicit. -/
def ServerPool.NextIndex (s : ServerPool) : Nat :=
  ((s.current + 1) % 2 ^ 64) % s.backends.length

/-- Embeds the scan loop of `ServerPool.GetNextPeer`
(`for i := next; i < len+next; i++`): `fuel` counts the remaining iterations,
`i` is the loop counter; each iteration inspects index `i % len` and returns
the first backend whose `IsAlive` is true. -/
def scanBackends (backends : List Backend) (now : Int) : Nat → Nat → Option Nat
  | _, 0 => none
  | i, fuel + 1 =>
    let idx := i % backends.length
    if (backends.getD idx default).IsAlive now then some idx
    else scanBackends backends now (i + 1) fuel

/-- Embeds `ServerPool.GetNextPeer`: scan `len(backends)` slots starting at
`NextIndex`; on a hit, store the hit index into `current` and return it, else
return `none` (Go `nil`). -/
def ServerPool.GetNextPeer (s : ServerPool) (now : Int) : Option Nat × ServerPool :=
  match scanBackends s.backends now s.NextIndex s.backends.length with
  | some idx => (some idx, { s with current := idx })
  | none => (none, s)

/-- Embeds the loop body of `ServerPool.MarkBackendStatus`: walk the slice and
call `SetAlive` on the first backend whose URL string matches, then stop. -/
def markList : List Backend → String → Bool → Int → List Backend
  | [], _, _, _ => []
  | b :: rest, u, alive, now =>
    if b.url = u then b.SetAlive alive now :: rest
    else b :: markList rest u alive now

/-- Embeds `ServerPool.MarkBackendStatus`. -/
def ServerPool.MarkBackendStatus (s : ServerPool) (u : String) (alive : Bool)
    (now : Int) : ServerPool :=
  { s with backends := markList s.backends u alive now }

/-- Embeds one iteration of the `HealthCheck` sweep for a single backend: if
the backend is in circuit-breaker state (`!IsAlive && FailureCount > 3 &&
since(LastCheck) < 30s`), skip it and leave it unchanged; otherwise probe
`GET <url>/health` — the outcome is supplied by the oracle argument `probeOk`
(`true` iff the probe returned 200 with no transport error) — and call
`SetAlive` with that outcome. -/
def healthCheckStep (b : Backend) (probeOk : Bool) (now : Int) : Backend :=
  if b.IsAlive now = false ∧ b.failureCount > 3 ∧
      now - b.lastCheck < 30 * secondNs
  then b
  else b.SetAlive probeOk now

/-- Embeds the `HealthCheck` loop over the backend slice; `i` is the position
of the head backend and `probe` gives each backend's probe outcome. -/
def healthCheckFrom : List Backend → Nat → (Nat → Bool) → Int → List Backend
  | [], _, _, _ => []
  | b :: rest, i, probe, now =>
      healthCheckStep b (probe i) now :: healthCheckFrom rest (i + 1) probe now

/-- Embeds `ServerPool.HealthCheck`. -/
def ServerPool.HealthCheck (s : ServerPool) (probe : Nat → Bool) (now : Int) :
    ServerPool :=
  { s with backends := healthCheckFrom s.backends 0 probe now }

/-- An inbound HTTP request as the front-door handlers could observe it: the
method and the path (the only metadata the embedded handlers could read). -/
structure HttpRequest where
  method : String
  path : String
deriving DecidableEq, Repr, Inhabited

/-- Embeds `countHealthyBackends`: the number of backends whose `IsAlive`
check passes. -/
def countHealthyBackends (s : ServerPool) (now : Int) : Nat :=
  s.backends.countP fun b => b.IsAlive now

/-- Outcome of the default route: the request is handed to the proxy of the
selected backend, or answered 503 "Service unavailable". -/
inductive RouteOutcome
  | routed (idx : Nat)
  | unavailable
deriving DecidableEq, Repr

/-- Embeds the `loadBalancer` handler for the default route `/`: ask the pool
for the next peer; hand the request to that peer's proxy when one is found,
else respond 503. -/
def loadBalancer (s : ServerPool) (now : Int) (r : HttpRequest) :
    RouteOutcome × ServerPool :=
  let res := s.GetNextPeer now
  match res.1 with
  | some idx => (RouteOutcome.routed idx, res.2)
  | none => (RouteOutcome.unavailable, res.2)

/-- Embeds `healthHandler`: HTTP 503 with an "UNHEALTHY" body when no backend
is eligible, else HTTP 200 with the healthy/total counts.  The request is
never inspected. -/
def healthHandler (s : ServerPool) (now : Int) (r : HttpRequest) :
    Nat × String :=
  let healthyCount := countHealthyBackends s now
  if healthyCount = 0 then
    (503, "UNHEALTHY: No healthy backends available")
  else
    (200, "HEALTHY: " ++ toString healthyCount ++ "/" ++
      toString s.backends.length ++ " backends available")

/-- One entry of the `/status` JSON `backends` array (`last_check` kept as the
raw timestamp rather than its RFC3339 rendering). -/
structure BackendStatus where
  url : String
  alive : Bool
  failure_count : Nat
  last_check : Int
deriving DecidableEq, Repr

/-- The `/status` JSON document. -/
structure StatusResponse where
  status : String
  total_backends : Nat
  healthy_backends : Nat
  current_index : Nat
  backends : List BackendStatus
deriving DecidableEq, Repr

/-- Embeds `statusHandler`: build the snapshot (the reported per-backend
`alive` field is overridden to false inside the cooldown window), then mark
the document `degraded` and respond HTTP 503 when `healthy_backends` is zero,
else leave it `operational` with HTTP 200.  The request is never inspected. -/
def statusHandler (s : ServerPool) (now : Int) (r : HttpRequest) :
    Nat × StatusResponse :=
  let response : StatusResponse :=
    { status := "operational"
      total_backends := s.backends.length
      healthy_backends := countHealthyBackends s now
      current_index := s.current
      backends := s.backends.map fun b =>
        { url := b.url
          alive := if b.failureCount > 3 ∧ now - b.lastCheck < 30 * secondNs
                   then false else b.alive
          failure_count := b.failureCount
          last_check := b.lastCheck } }
  if response.healthy_backends = 0 then
    (503, { response with status := "degraded" })
  else (200, response)

/-- Embeds the per-backend `proxy.ErrorHandler` closure with `backendUrl` the
URL of the backend whose forward failed: mark that backend down, ask the
selector once, and retry exactly when it returns a peer with a different URL
(the returned index), else respond 503 (`none`). -/
def proxyErrorHandler (s : ServerPool) (backendUrl : String) (now : Int) :
    Option Nat × ServerPool :=
  let s1 := s.MarkBackendStatus backendUrl false now
  let r := s1.GetNextPeer now
  match r.1 with
  | some i =>
    if (r.2.backends.getD i default).url ≠ backendUrl then (some i, r.2)
    else (none, r.2)
  | none => (none, r.2)

/-- Embeds forwarding the request to the backend at index `i`
(`peer.ReverseProxy.ServeHTTP`): the oracle `fails` says whether forwarding to
a given URL errors.  On an error, that backend's `ErrorHandler` runs
(`proxyErrorHandler` inlined) and a granted retry re-enters through the
retried backend's own proxy — so the handlers chain.  `fuel` bounds the
recursion (one unit per forward attempt).  Returns the indices attempted in
order, whether a backend response was delivered, and the final pool. -/
def serveVia (fails : String → Bool) (now : Int) :
    Nat → ServerPool → Nat → List Nat × Bool × ServerPool
  | 0, s, _ => ([], false, s)
  | fuel + 1, s, i =>
    let b := s.backends.getD i default
    if fails b.url then
      let s1 := s.MarkBackendStatus b.url false now
      let r := s1.GetNextPeer now
      match r.1 with
      | some j =>
        if (r.2.backends.getD j default).url ≠ b.url then
          let rest := serveVia fails now fuel r.2 j
          (i :: rest.1, rest.2.1, rest.2.2)
        else ([i], false, r.2)
      | none => ([i], false, r.2)
    else ([i], true, s)

/-- A full request on the default route: `loadBalancer` selects a peer, then
the request is served through that peer's proxy with chained error handlers.
The fuel `N + 1` covers the initial attempt plus at most one retry per
remaining backend. -/
def handleRequest (s : ServerPool) (fails : String → Bool) (now : Int)
    (r : HttpRequest) : List Nat × Bool × ServerPool :=
  let res := s.GetNextPeer now
  match res.1 with
  | some idx => serveVia fails now (res.2.backends.length + 1) res.2 idx
  | none => ([], false, res.2)

end LoadBalancer

namespace LoadBalancer

/-- The scan loop of `GetNextPeer` computes `find?` over the cyclic visit
order `start % N, (start+1) % N, …` of length `fuel`. -/
theorem scanBackends_eq_find (backends : List Backend) (now : Int)
    (fuel start : Nat) :
    scanBackends backends now start fuel =
      ((List.range fuel).map fun k => (start + k) % backends.length).find?
        (fun i => (backends.getD i default).IsAlive now) := by
  induction fuel generalizing start with
  | zero => rfl
  | succ n ih =>
    have hstep : scanBackends backends now start (n + 1) =
        if (backends.getD (start % backends.length) default).IsAlive now
        then some (start % backends.length)
        else scanBackends backends now (start + 1) n := rfl
    have hmap : (List.range n).map
          ((fun k => (start + k) % backends.length) ∘ Nat.succ) =
        (List.range n).map fun k => (start + 1 + k) % backends.length := by
      apply List.map_congr_left
      intro k _
      show (start + (k + 1)) % backends.length = (start + 1 + k) % backends.length
      congr 1
      omega
    rw [hstep, List.range_succ_eq_map, List.map_cons, List.map_map, hmap]
    by_cases h : (backends.getD (start % backends.length) default).IsAlive now = true
    · rw [if_pos h, List.find?_cons_of_pos _ (by simpa using h)]
      rfl
    · rw [if_neg h, List.find?_cons_of_neg _ (by simpa using h)]
      exact ih (start + 1)

/-- The first component of `GetNextPeer` is exactly the scan loop's result. -/
theorem getNextPeer_fst (s : ServerPool) (now : Int) :
    (s.GetNextPeer now).1 =
      scanBackends s.backends now s.NextIndex s.backends.length := by
  unfold ServerPool.GetNextPeer
  cases scanBackends s.backends now s.NextIndex s.backends.length <;> rfl

/-- `GetNextPeer` never mutates the backend list. -/
theorem getNextPeer_backends (s : ServerPool) (now : Int) :
    (s.GetNextPeer now).2.backends = s.backends := by
  unfold ServerPool.GetNextPeer
  cases scanBackends s.backends now s.NextIndex s.backends.length <;> rfl

/-- When the scan hits, the cursor is stored to the hit index. -/
theorem getNextPeer_some_current (s : ServerPool) (now : Int) (i : Nat)
    (h : (s.GetNextPeer now).1 = some i) :
    (s.GetNextPeer now).2.current = i := by
  unfold ServerPool.GetNextPeer at h ⊢
  cases hscan : scanBackends s.backends now s.NextIndex s.backends.length <;>
    rw [hscan] at h <;> simp_all

/-- When the scan misses, the pool is returned unchanged. -/
theorem getNextPeer_none_pool (s : ServerPool) (now : Int)
    (h : (s.GetNextPeer now).1 = none) :
    (s.GetNextPeer now).2 = s := by
  unfold ServerPool.GetNextPeer at h ⊢
  cases hscan : scanBackends s.backends now s.NextIndex s.backends.length <;>
    rw [hscan] at h <;> simp_all

/-- Adding a fixed offset is injective modulo `N` on residues below `N`. -/
theorem add_mod_inj (a N k1 k2 : Nat) (h1 : k1 < N) (h2 : k2 < N)
    (h : (a + k1) % N = (a + k2) % N) : k1 = k2 := by
  have hm : a + k1 ≡ a + k2 [MOD N] := h
  have hk : k1 ≡ k2 [MOD N] := Nat.ModEq.add_left_cancel' a hm
  have := hk
  unfold Nat.ModEq at this
  rw [Nat.mod_eq_of_lt h1, Nat.mod_eq_of_lt h2] at this
  exact this

/-- Residues `(a + k) % N` for `k < N` cover every `i < N`. -/
theorem add_mod_cover (a N i : Nat) (hi : i < N) :
    ∃ k, k < N ∧ (a + k) % N = i := by
  have hN : 0 < N := Nat.lt_of_le_of_lt (Nat.zero_le i) hi
  have hinj : Function.Injective
      (fun k : Fin N => (⟨(a + k.val) % N, Nat.mod_lt _ hN⟩ : Fin N)) := by
    intro k1 k2 hk
    have h' : (a + k1.val) % N = (a + k2.val) % N :=
      congrArg Fin.val hk
    exact Fin.ext (add_mod_inj a N k1.val k2.val k1.isLt k2.isLt h')
  have hsurj := Finite.injective_iff_surjective.mp hinj
  obtain ⟨k, hk⟩ := hsurj ⟨i, hi⟩
  exact ⟨k.val, k.isLt, congrArg Fin.val hk⟩

/-- C1: for every non-empty pool (cursor below the `uint64` wrap point),
`GetNextPeer` visits the `N` indices `(cursor+1) % N, (cursor+2) % N, …` once
each in forward order and returns the first whose `IsAlive` check is true,
storing the cursor to that index; it returns `none` (the caller then responds
503) exactly when no backend is eligible after the full scan. -/
theorem getNextPeer_roundRobin (s : ServerPool) (now : Int)
    (hN : 0 < s.backends.length) (hc : s.current + 1 < 2 ^ 64) :
    (s.GetNextPeer now).1 =
      (((List.range s.backends.length).map
          fun k => (s.current + 1 + k) % s.backends.length).find?
        fun i => (s.backends.getD i default).IsAlive now) ∧
    ((List.range s.backends.length).map
        fun k => (s.current + 1 + k) % s.backends.length).Nodup ∧
    (∀ i, (s.GetNextPeer now).1 = some i →
      (s.GetNextPeer now).2.current = i ∧ i < s.backends.length ∧
        (s.backends.getD i default).IsAlive now = true) ∧
    ((s.GetNextPeer now).1 = none ↔
      ∀ i, i < s.backends.length →
        (s.backends.getD i default).IsAlive now = false) := by
  have hNI : s.NextIndex = (s.current + 1) % s.backends.length := by
    unfold ServerPool.NextIndex
    rw [Nat.mod_eq_of_lt hc]
  have horder : (List.range s.backends.length).map
        (fun k => (s.NextIndex + k) % s.backends.length) =
      (List.range s.backends.length).map
        (fun k => (s.current + 1 + k) % s.backends.length) := by
    apply List.map_congr_left
    intro k _
    rw [hNI, Nat.mod_add_mod]
  have hfst : (s.GetNextPeer now).1 =
      (((List.range s.backends.length).map
          fun k => (s.current + 1 + k) % s.backends.length).find?
        fun i => (s.backends.getD i default).IsAlive now) := by
    rw [getNextPeer_fst, scanBackends_eq_find, horder]
  refine ⟨hfst, ?_, ?_, ?_⟩
  · refine List.Nodup.map_on ?_ (List.nodup_range _)
    intro k1 hk1 k2 hk2 heq
    exact add_mod_inj (s.current + 1) s.backends.length k1 k2
      (List.mem_range.mp hk1) (List.mem_range.mp hk2) heq
  · intro i hi
    refine ⟨getNextPeer_some_current s now i hi, ?_, ?_⟩
    · rw [hfst] at hi
      have hmem := List.mem_of_find?_eq_some hi
      simp only [List.mem_map, List.mem_range] at hmem
      obtain ⟨k, hk, rfl⟩ := hmem
      exact Nat.mod_lt _ hN
    · rw [hfst] at hi
      have := List.find?_some hi
      simpa using this
  · rw [hfst, List.find?_eq_none]
    constructor
    · intro hnone i hilt
      obtain ⟨k, hk, hke⟩ := add_mod_cover (s.current + 1) s.backends.length i hilt
      have hmem : i ∈ (List.range s.backends.length).map
          fun k => (s.current + 1 + k) % s.backends.length :=
        List.mem_map.mpr ⟨k, List.mem_range.mpr hk, hke⟩
      have := hnone i hmem
      simpa using this
    · intro hall x hx
      simp only [List.mem_map, List.mem_range] at hx
      obtain ⟨k, hk, rfl⟩ := hx
      have hfalse := hall _ (Nat.mod_lt (s.current + 1 + k) hN)
      simp only [Bool.not_eq_true]
      exact hfalse

/-- A concrete three-backend pool used by witnesses: backend 1 has its alive
flag cleared, backends 0 and 2 are alive, cursor at 0. -/
def wPool : ServerPool :=
  { backends :=
      [ { url := "http://app1:8080", alive := true, failureCount := 0, lastCheck := 0 }
      , { url := "http://app2:8080", alive := false, failureCount := 1, lastCheck := 0 }
      , { url := "http://app3:8080", alive := true, failureCount := 0, lastCheck := 0 } ]
    current := 0 }

/-- C1 witness: the round-robin characterization instantiated on `wPool` at
time 0 (the scan skips dead backend 1 and selects backend 2). -/
theorem getNextPeer_roundRobin_witness :
    0 < wPool.backends.length ∧ wPool.current + 1 < 2 ^ 64 ∧
    ((wPool.GetNextPeer 0).1 =
      (((List.range wPool.backends.length).map
          fun k => (wPool.current + 1 + k) % wPool.backends.length).find?
        fun i => (wPool.backends.getD i default).IsAlive 0) ∧
    ((List.range wPool.backends.length).map
        fun k => (wPool.current + 1 + k) % wPool.backends.length).Nodup ∧
    (∀ i, (wPool.GetNextPeer 0).1 = some i →
      (wPool.GetNextPeer 0).2.current = i ∧ i < wPool.backends.length ∧
        (wPool.backends.getD i default).IsAlive 0 = true) ∧
    ((wPool.GetNextPeer 0).1 = none ↔
      ∀ i, i < wPool.backends.length →
        (wPool.backends.getD i default).IsAlive 0 = false)) :=
  ⟨by decide, by decide, getNextPeer_roundRobin wPool 0 (by decide) (by decide)⟩

/-- With every backend eligible, `GetNextPeer` selects the immediate cyclic
successor of the cursor and stores it. -/
theorem getNextPeer_all_alive (s : ServerPool) (now : Int)
    (hN : 0 < s.backends.length) (hc : s.current + 1 < 2 ^ 64)
    (hall : ∀ b ∈ s.backends, b.IsAlive now = true) :
    s.GetNextPeer now =
      (some ((s.current + 1) % s.backends.length),
       { s with current := (s.current + 1) % s.backends.length }) := by
  have hNI : s.NextIndex = (s.current + 1) % s.backends.length := by
    unfold ServerPool.NextIndex
    rw [Nat.mod_eq_of_lt hc]
  have hlt : (s.current + 1) % s.backends.length < s.backends.length :=
    Nat.mod_lt _ hN
  have halive : (s.backends.getD ((s.current + 1) % s.backends.length)
      default).IsAlive now = true := by
    rw [List.getD_eq_getElem s.backends default hlt]
    exact hall _ (List.getElem_mem hlt)
  obtain ⟨f, hf⟩ : ∃ f, s.backends.length = f + 1 :=
    ⟨s.backends.length - 1, by omega⟩
  have hmod : s.NextIndex % s.backends.length = (s.current + 1) % s.backends.length := by
    rw [hNI, Nat.mod_eq_of_lt hlt]
  have hscan : scanBackends s.backends now s.NextIndex s.backends.length =
      some ((s.current + 1) % s.backends.length) := by
    rw [hf]
    have hstep : scanBackends s.backends now s.NextIndex (f + 1) =
        if (s.backends.getD (s.NextIndex % s.backends.length) default).IsAlive now
        then some (s.NextIndex % s.backends.length)
        else scanBackends s.backends now (s.NextIndex + 1) f := rfl
    rw [hstep, hmod, if_pos halive, ← hf]
  unfold ServerPool.GetNextPeer
  rw [hscan]

/-- Embeds `n` consecutive requests on the default route: each calls
`GetNextPeer` and threads the resulting pool (cursor) into the next call,
collecting the selected indices. -/
def runSelections : ServerPool → Int → Nat → List (Option Nat) × ServerPool
  | s, _, 0 => ([], s)
  | s, now, n + 1 =>
    let r := s.GetNextPeer now
    let rest := runSelections r.2 now n
    (r.1 :: rest.1, rest.2)

/-- With every backend eligible, `n` consecutive selections return the cyclic
successors of the initial cursor in order, leaving the backend list unchanged
and the cursor on the last selected index. -/
theorem runSelections_all_alive (n : Nat) (s : ServerPool) (now : Int)
    (hN : 0 < s.backends.length) (hcur : s.current < s.backends.length)
    (hlen : s.backends.length < 2 ^ 64)
    (hall : ∀ b ∈ s.backends, b.IsAlive now = true) :
    (runSelections s now n).1 =
      (List.range n).map
        (fun k => some ((s.current + 1 + k) % s.backends.length)) ∧
    (runSelections s now n).2.backends = s.backends ∧
    (runSelections s now n).2.current =
      (if n = 0 then s.current else (s.current + n) % s.backends.length) := by
  induction n generalizing s with
  | zero => exact ⟨rfl, rfl, rfl⟩
  | succ n ih =>
    have hc : s.current + 1 < 2 ^ 64 := by omega
    have hstep := getNextPeer_all_alive s now hN hc hall
    have hrun : runSelections s now (n + 1) =
        ((s.GetNextPeer now).1 :: (runSelections (s.GetNextPeer now).2 now n).1,
         (runSelections (s.GetNextPeer now).2 now n).2) := rfl
    rw [hrun, hstep]
    have hidx : (s.current + 1) % s.backends.length < s.backends.length :=
      Nat.mod_lt _ hN
    have ih' := ih { s with current := (s.current + 1) % s.backends.length }
      hN hidx hlen hall
    refine ⟨?_, ih'.2.1, ?_⟩
    · rw [ih'.1, List.range_succ_eq_map, List.map_cons, List.map_map]
      refine List.cons_eq_cons.mpr ⟨rfl, ?_⟩
      apply List.map_congr_left
      intro k _
      show some (((s.current + 1) % s.backends.length + 1 + k) % s.backends.length) =
        some ((s.current + 1 + (k + 1)) % s.backends.length)
      have h1 : (s.current + 1) % s.backends.length + 1 + k =
          (s.current + 1) % s.backends.length + (1 + k) := by omega
      rw [h1, Nat.mod_add_mod]
      have h2 : s.current + 1 + (1 + k) = s.current + 1 + (k + 1) := by omega
      rw [h2]
    · rw [ih'.2.2]
      by_cases hn : n = 0
      · subst hn
        simp
      · rw [if_neg hn, if_neg (Nat.succ_ne_zero n)]
        show ((s.current + 1) % s.backends.length + n) % s.backends.length =
          (s.current + (n + 1)) % s.backends.length
        rw [Nat.mod_add_mod]
        congr 1
        omega

/-- C6: for a pool whose `N` backends are all eligible, `N` consecutive
`GetNextPeer` calls return the indices `(cursor+1) % N, (cursor+2) % N, …` in
that fixed rotating order, and that order has no repeats and covers every
backend — each backend is selected exactly once. -/
theorem roundRobin_visits_each_once (s : ServerPool) (now : Int)
    (hN : 0 < s.backends.length) (hcur : s.current < s.backends.length)
    (hlen : s.backends.length < 2 ^ 64)
    (hall : ∀ b ∈ s.backends, b.IsAlive now = true) :
    (runSelections s now s.backends.length).1 =
      (List.range s.backends.length).map
        (fun k => some ((s.current + 1 + k) % s.backends.length)) ∧
    ((List.range s.backends.length).map
        (fun k => (s.current + 1 + k) % s.backends.length)).Nodup ∧
    (∀ i, i < s.backends.length →
      some i ∈ (runSelections s now s.backends.length).1) := by
  obtain ⟨hsel, -, -⟩ := runSelections_all_alive s.backends.length s now hN hcur hlen hall
  refine ⟨hsel, ?_, ?_⟩
  · refine List.Nodup.map_on ?_ (List.nodup_range _)
    intro k1 hk1 k2 hk2 heq
    exact add_mod_inj (s.current + 1) s.backends.length k1 k2
      (List.mem_range.mp hk1) (List.mem_range.mp hk2) heq
  · intro i hi
    obtain ⟨k, hk, hke⟩ := add_mod_cover (s.current + 1) s.backends.length i hi
    rw [hsel]
    exact List.mem_map.mpr ⟨k, List.mem_range.mpr hk, by rw [hke]⟩

/-- A concrete three-backend pool with every backend alive, cursor at 0. -/
def wPoolAllAlive : ServerPool :=
  { backends :=
      [ { url := "http://app1:8080", alive := true, failureCount := 0, lastCheck := 0 }
      , { url := "http://app2:8080", alive := true, failureCount := 0, lastCheck := 0 }
      , { url := "http://app3:8080", alive := true, failureCount := 0, lastCheck := 0 } ]
    current := 0 }

/-- C6 witness: on the all-alive three-backend pool, three consecutive
selections return indices 1, 2, 0 — each backend exactly once. -/
theorem roundRobin_visits_each_once_witness :
    0 < wPoolAllAlive.backends.length ∧
    wPoolAllAlive.current < wPoolAllAlive.backends.length ∧
    wPoolAllAlive.backends.length < 2 ^ 64 ∧
    ((runSelections wPoolAllAlive 0 wPoolAllAlive.backends.length).1 =
      (List.range wPoolAllAlive.backends.length).map
        (fun k => some ((wPoolAllAlive.current + 1 + k) %
          wPoolAllAlive.backends.length)) ∧
    ((List.range wPoolAllAlive.backends.length).map
        (fun k => (wPoolAllAlive.current + 1 + k) %
          wPoolAllAlive.backends.length)).Nodup ∧
    (∀ i, i < wPoolAllAlive.backends.length →
      some i ∈ (runSelections wPoolAllAlive 0 wPoolAllAlive.backends.length).1)) :=
  ⟨by decide, by decide, by decide,
    roundRobin_visits_each_once wPoolAllAlive 0 (by decide) (by decide)
      (by decide) (by decide)⟩

/-- C4: `IsAlive` returns `false` whenever `failureCount > 3` and less than 30
seconds have elapsed since `lastCheck`, independently of the `alive` flag, and
otherwise returns the current `alive` flag. -/
theorem isAlive_cooldown_spec (b : Backend) (now : Int) :
    (b.failureCount > 3 → now - b.lastCheck < 30 * secondNs →
      b.IsAlive now = false) ∧
    (¬ (b.failureCount > 3 ∧ now - b.lastCheck < 30 * secondNs) →
      b.IsAlive now = b.alive) := by
  constructor
  · intro h1 h2
    simp [Backend.IsAlive, h1, h2]
  · intro h
    simp [Backend.IsAlive, h]

/-- C4 witness: a concrete record with 4 failures checked 10 seconds after its
last state change is reported dead even though its `alive` flag is true, and
the same record checked 40 seconds after is reported by its raw flag. -/
theorem isAlive_cooldown_spec_witness :
    (Backend.mk "http://app1:8080" true 4 0).IsAlive (10 * secondNs) = false ∧
    (Backend.mk "http://app1:8080" true 4 0).IsAlive (40 * secondNs) = true := by
  refine ⟨(isAlive_cooldown_spec _ _).1 (by decide) (by decide), ?_⟩
  have h := (isAlive_cooldown_spec (Backend.mk "http://app1:8080" true 4 0)
      (40 * secondNs)).2 (by decide)
  simpa using h

/-- C5: `SetAlive true` sets the flag, resets `failureCount` to 0 and stamps
`lastCheck`; `SetAlive false` clears the flag, strictly increases
`failureCount` from its prior value and stamps `lastCheck`. -/
theorem setAlive_spec (b : Backend) (now : Int) :
    (b.SetAlive true now).alive = true ∧
    (b.SetAlive true now).failureCount = 0 ∧
    (b.SetAlive true now).lastCheck = now ∧
    (b.SetAlive false now).alive = false ∧
    (b.SetAlive false now).failureCount > b.failureCount ∧
    (b.SetAlive false now).lastCheck = now := by
  refine ⟨rfl, rfl, rfl, rfl, ?_, rfl⟩
  simp [Backend.SetAlive]

/-- A scan hit always satisfies the eligibility predicate. -/
theorem getNextPeer_some_isAlive (s : ServerPool) (now : Int) (i : Nat)
    (h : (s.GetNextPeer now).1 = some i) :
    (s.backends.getD i default).IsAlive now = true := by
  rw [getNextPeer_fst, scanBackends_eq_find] at h
  have := List.find?_some h
  simpa using this

/-- C3: a backend whose `failureCount` exceeds 3 is, throughout the 30 seconds
following its last state change, skipped unchanged by the health sweep,
reported ineligible regardless of its `alive` flag, and never returned by
selection. -/
theorem cooldown_excludes_backend (b : Backend) (t : Int)
    (hf : b.failureCount > 3) (h0 : 0 ≤ t - b.lastCheck)
    (h30 : t - b.lastCheck < 30 * secondNs) :
    (∀ p, healthCheckStep b p t = b) ∧
    b.IsAlive t = false ∧
    (∀ (s : ServerPool) (i : Nat), s.backends.getD i default = b →
      (s.GetNextPeer t).1 ≠ some i) := by
  have hdead : b.IsAlive t = false := by
    simp [Backend.IsAlive, hf, h30]
  refine ⟨?_, hdead, ?_⟩
  · intro p
    unfold healthCheckStep
    rw [if_pos ⟨hdead, hf, h30⟩]
  · intro s i hb hsel
    have halive := getNextPeer_some_isAlive s t i hsel
    rw [hb, hdead] at halive
    exact Bool.false_ne_true halive

/-- A concrete backend that has exceeded the failure threshold: 4 failures,
last state change at time 0, raw alive flag still true. -/
def wCooldownBackend : Backend :=
  { url := "http://app2:8080", alive := true, failureCount := 4, lastCheck := 0 }

/-- C3 witness: ten seconds after its fourth failure, `wCooldownBackend` is
skipped by the sweep, ineligible, and never selected. -/
theorem cooldown_excludes_backend_witness :
    wCooldownBackend.failureCount > 3 ∧
    0 ≤ (10 * secondNs) - wCooldownBackend.lastCheck ∧
    (10 * secondNs) - wCooldownBackend.lastCheck < 30 * secondNs ∧
    ((∀ p, healthCheckStep wCooldownBackend p (10 * secondNs) = wCooldownBackend) ∧
     wCooldownBackend.IsAlive (10 * secondNs) = false ∧
     (∀ (s : ServerPool) (i : Nat),
        s.backends.getD i default = wCooldownBackend →
        (s.GetNextPeer (10 * secondNs)).1 ≠ some i)) :=
  ⟨by decide, by decide, by decide,
    cooldown_excludes_backend wCooldownBackend (10 * secondNs)
      (by decide) (by decide) (by decide)⟩

/-- C9: outside the cooldown window (`failureCount ≤ 3`, or at least 30
seconds since `lastCheck`), `IsAlive` equals the raw `alive` flag; and a
backend whose `alive` flag is false is ineligible at every instant — it is
never returned by selection, selection never mutates the backend list, and
further `SetAlive false` calls keep the flag false — until a
`SetAlive true` sets the flag true again. -/
theorem eligibility_reverts_to_alive_flag (b : Backend) :
    (∀ t : Int, ¬ (b.failureCount > 3 ∧ t - b.lastCheck < 30 * secondNs) →
      b.IsAlive t = b.alive) ∧
    (b.alive = false →
      (∀ t : Int, b.IsAlive t = false) ∧
      (∀ (t : Int) (s : ServerPool) (i : Nat),
        s.backends.getD i default = b →
        (s.GetNextPeer t).1 ≠ some i ∧
        (s.GetNextPeer t).2.backends = s.backends) ∧
      (∀ t : Int, (b.SetAlive false t).alive = false) ∧
      (∀ t : Int, (b.SetAlive true t).alive = true)) := by
  constructor
  · intro t h
    simp [Backend.IsAlive, h]
  · intro hflag
    have hdead : ∀ t : Int, b.IsAlive t = false := by
      intro t
      unfold Backend.IsAlive
      by_cases h : b.failureCount > 3 ∧ t - b.lastCheck < 30 * secondNs
      · rw [if_pos h]
      · rw [if_neg h, hflag]
    refine ⟨hdead, ?_, fun _ => rfl, fun _ => rfl⟩
    intro t s i hb
    refine ⟨?_, getNextPeer_backends s t⟩
    intro hsel
    have halive := getNextPeer_some_isAlive s t i hsel
    rw [hb, hdead t] at halive
    exact Bool.false_ne_true halive

/-- A concrete backend marked down (flag false) whose cooldown has long
expired: 1 failure, last state change at time 0. -/
def wDeadBackend : Backend :=
  { url := "http://app3:8080", alive := false, failureCount := 1, lastCheck := 0 }

/-- C9 witness: the reversion-and-persistence property instantiated on
`wDeadBackend`. -/
theorem eligibility_reverts_to_alive_flag_witness :
    (∀ t : Int,
      ¬ (wDeadBackend.failureCount > 3 ∧
          t - wDeadBackend.lastCheck < 30 * secondNs) →
      wDeadBackend.IsAlive t = wDeadBackend.alive) ∧
    (wDeadBackend.alive = false →
      (∀ t : Int, wDeadBackend.IsAlive t = false) ∧
      (∀ (t : Int) (s : ServerPool) (i : Nat),
        s.backends.getD i default = wDeadBackend →
        (s.GetNextPeer t).1 ≠ some i ∧
        (s.GetNextPeer t).2.backends = s.backends) ∧
      (∀ t : Int, (wDeadBackend.SetAlive false t).alive = false) ∧
      (∀ t : Int, (wDeadBackend.SetAlive true t).alive = true)) :=
  eligibility_reverts_to_alive_flag wDeadBackend

/-- C7: whenever every backend in the pool is ineligible, every request to the
default route `/` is answered 503 and every request to `/health` is answered
503. -/
theorem all_ineligible_gives_503 (s : ServerPool) (now : Int)
    (hall : ∀ b ∈ s.backends, b.IsAlive now = false) :
    ∀ r : HttpRequest,
      (loadBalancer s now r).1 = RouteOutcome.unavailable ∧
      (healthHandler s now r).1 = 503 := by
  intro r
  have hcount : countHealthyBackends s now = 0 := by
    unfold countHealthyBackends
    rw [List.countP_eq_zero]
    intro b hb
    simp [hall b hb]
  have hnone : (s.GetNextPeer now).1 = none := by
    rw [getNextPeer_fst, scanBackends_eq_find, List.find?_eq_none]
    intro x hx
    simp only [List.mem_map, List.mem_range] at hx
    obtain ⟨k, hk, rfl⟩ := hx
    have hN : 0 < s.backends.length := by omega
    have hlt := Nat.mod_lt (s.NextIndex + k) hN
    simp only [Bool.not_eq_true]
    rw [List.getD_eq_getElem s.backends default hlt]
    exact hall _ (List.getElem_mem hlt)
  constructor
  · simp only [loadBalancer]
    rw [hnone]
  · simp only [healthHandler]
    rw [if_pos hcount]

/-- A concrete three-backend pool with every alive flag cleared. -/
def wPoolAllDead : ServerPool :=
  { backends :=
      [ { url := "http://app1:8080", alive := false, failureCount := 1, lastCheck := 0 }
      , { url := "http://app2:8080", alive := false, failureCount := 2, lastCheck := 0 }
      , { url := "http://app3:8080", alive := false, failureCount := 1, lastCheck := 0 } ]
    current := 0 }

/-- C7 witness: on the all-dead pool, `/` and `/health` both answer 503. -/
theorem all_ineligible_gives_503_witness :
    (∀ b ∈ wPoolAllDead.backends, b.IsAlive 0 = false) ∧
    ∀ r : HttpRequest,
      (loadBalancer wPoolAllDead 0 r).1 = RouteOutcome.unavailable ∧
      (healthHandler wPoolAllDead 0 r).1 = 503 :=
  ⟨by decide, all_ineligible_gives_503 wPoolAllDead 0 (by decide)⟩

/-- C8: the `/status` document's `healthy_backends` field equals the number of
backend records whose `IsAlive` check is true when the response is built, and
the response carries status string "degraded" with HTTP 503 exactly when that
count is zero, else "operational" with HTTP 200. -/
theorem statusHandler_spec (s : ServerPool) (now : Int) (r : HttpRequest) :
    (statusHandler s now r).2.healthy_backends =
      (s.backends.countP fun b => b.IsAlive now) ∧
    (((statusHandler s now r).1 = 503 ∧
        (statusHandler s now r).2.status = "degraded") ↔
      (s.backends.countP fun b => b.IsAlive now) = 0) ∧
    ((s.backends.countP fun b => b.IsAlive now) ≠ 0 →
      (statusHandler s now r).1 = 200 ∧
      (statusHandler s now r).2.status = "operational") := by
  unfold statusHandler countHealthyBackends
  by_cases hc : (s.backends.countP fun b => b.IsAlive now) = 0
  · simp [hc]
  · simp [hc]

/-- C8 witness: the `/status` characterization instantiated on the pool with
one dead and two alive backends. -/
theorem statusHandler_spec_witness :
    (statusHandler wPool 0 { method := "GET", path := "/status" }).2.healthy_backends =
      (wPool.backends.countP fun b => b.IsAlive 0) ∧
    (((statusHandler wPool 0 { method := "GET", path := "/status" }).1 = 503 ∧
        (statusHandler wPool 0 { method := "GET", path := "/status" }).2.status
          = "degraded") ↔
      (wPool.backends.countP fun b => b.IsAlive 0) = 0) ∧
    ((wPool.backends.countP fun b => b.IsAlive 0) ≠ 0 →
      (statusHandler wPool 0 { method := "GET", path := "/status" }).1 = 200 ∧
      (statusHandler wPool 0 { method := "GET", path := "/status" }).2.status
        = "operational") :=
  statusHandler_spec wPool 0 { method := "GET", path := "/status" }

/-- C10: neither `/health` nor `/status` inspects the request method: any
request receives exactly the response a GET with the same path would receive
in the same pool state. -/
theorem handlers_ignore_method (s : ServerPool) (now : Int) (r : HttpRequest) :
    healthHandler s now r =
      healthHandler s now { method := "GET", path := r.path } ∧
    statusHandler s now r =
      statusHandler s now { method := "GET", path := r.path } :=
  ⟨rfl, rfl⟩

/-- `MarkBackendStatus` rewrites exactly the first backend whose URL matches,
applying `SetAlive` to it and leaving every other entry unchanged. -/
theorem markList_first (l1 : List Backend) (b : Backend) (l2 : List Backend)
    (u : String) (alive : Bool) (now : Int)
    (hfirst : ∀ x ∈ l1, x.url ≠ u) (hb : b.url = u) :
    markList (l1 ++ b :: l2) u alive now = l1 ++ b.SetAlive alive now :: l2 := by
  induction l1 with
  | nil =>
    simp only [List.nil_append, markList]
    rw [if_pos hb]
  | cons x xs ih =>
    simp only [List.cons_append, markList, List.append_eq]
    rw [if_neg (hfirst x (List.mem_cons_self x xs)),
      ih fun y hy => hfirst y (List.mem_cons_of_mem x hy)]

/-- A forward attempt that errors unfolds to the backend's error handler: the
handler runs (`proxyErrorHandler`), and a granted retry re-enters `serveVia`
through the retried backend — the chained-failover step. -/
theorem serveVia_chains (fails : String → Bool) (now : Int) (fuel : Nat)
    (s : ServerPool) (i : Nat)
    (hfail : fails (s.backends.getD i default).url = true) :
    serveVia fails now (fuel + 1) s i =
      (match (proxyErrorHandler s (s.backends.getD i default).url now).1 with
       | some j =>
         (i :: (serveVia fails now fuel
             (proxyErrorHandler s (s.backends.getD i default).url now).2 j).1,
          (serveVia fails now fuel
             (proxyErrorHandler s (s.backends.getD i default).url now).2 j).2.1,
          (serveVia fails now fuel
             (proxyErrorHandler s (s.backends.getD i default).url now).2 j).2.2)
       | none =>
         ([i], false,
          (proxyErrorHandler s (s.backends.getD i default).url now).2)) := by
  cases hr : ((s.MarkBackendStatus (s.backends.getD i default).url false
      now).GetNextPeer now).1 with
  | none =>
    simp_all [serveVia, proxyErrorHandler]
  | some j =>
    by_cases hurl : (((s.MarkBackendStatus (s.backends.getD i default).url false
        now).GetNextPeer now).2.backends.getD j default).url =
        (s.backends.getD i default).url
    · simp_all [serveVia, proxyErrorHandler]
    · simp_all [serveVia, proxyErrorHandler]

/-- The error handler's body, with its intermediate state spelled out: one
`MarkBackendStatus` followed by one `GetNextPeer` and the URL comparison. -/
theorem proxyErrorHandler_eq (s : ServerPool) (u : String) (now : Int) :
    proxyErrorHandler s u now =
      (match ((s.MarkBackendStatus u false now).GetNextPeer now).1 with
       | some i =>
         if (((s.MarkBackendStatus u false now).GetNextPeer
             now).2.backends.getD i default).url ≠ u
         then (some i, ((s.MarkBackendStatus u false now).GetNextPeer now).2)
         else (none, ((s.MarkBackendStatus u false now).GetNextPeer now).2)
       | none => (none, ((s.MarkBackendStatus u false now).GetNextPeer now).2)) :=
  rfl

/-- C2 (amended): on a forwarding error the handler first marks the failing
backend down — the first pool entry carrying the failing URL gets
`SetAlive false` — then invokes the selector exactly once on the marked pool;
it retries exactly when that single selection returns an eligible backend
with a different URL, and otherwise responds 503.  A granted retry, however,
re-enters through the retried backend's own error handler, so one request may
be retried several times (per-invocation single hop, not per-request). -/
theorem errorHandler_failover_spec (s : ServerPool) (u : String) (now : Int) :
    (∀ l1 b l2, s.backends = l1 ++ b :: l2 → (∀ x ∈ l1, x.url ≠ u) →
      b.url = u →
      (s.MarkBackendStatus u false now).backends =
        l1 ++ b.SetAlive false now :: l2) ∧
    (∀ i, (proxyErrorHandler s u now).1 = some i →
      ((s.MarkBackendStatus u false now).GetNextPeer now).1 = some i ∧
      ((s.MarkBackendStatus u false now).backends.getD i default).IsAlive now
        = true ∧
      ((s.MarkBackendStatus u false now).backends.getD i default).url ≠ u) ∧
    ((proxyErrorHandler s u now).1 = none ↔
      ((s.MarkBackendStatus u false now).GetNextPeer now).1 = none ∨
      ∃ i, ((s.MarkBackendStatus u false now).GetNextPeer now).1 = some i ∧
        ((s.MarkBackendStatus u false now).backends.getD i default).url = u) ∧
    (∀ (fails : String → Bool) (fuel : Nat) (s' : ServerPool) (i : Nat),
      fails (s'.backends.getD i default).url = true →
      serveVia fails now (fuel + 1) s' i =
        (match (proxyErrorHandler s' (s'.backends.getD i default).url now).1 with
         | some j =>
           (i :: (serveVia fails now fuel
               (proxyErrorHandler s' (s'.backends.getD i default).url now).2 j).1,
            (serveVia fails now fuel
               (proxyErrorHandler s' (s'.backends.getD i default).url now).2 j).2.1,
            (serveVia fails now fuel
               (proxyErrorHandler s' (s'.backends.getD i default).url now).2 j).2.2)
         | none =>
           ([i], false,
            (proxyErrorHandler s' (s'.backends.getD i default).url now).2))) := by
  have hback :
      ((s.MarkBackendStatus u false now).GetNextPeer now).2.backends =
        (s.MarkBackendStatus u false now).backends :=
    getNextPeer_backends (s.MarkBackendStatus u false now) now
  refine ⟨?_, ?_, ?_, ?_⟩
  · intro l1 b l2 hsplit hfirst hb
    show markList s.backends u false now = _
    rw [hsplit]
    exact markList_first l1 b l2 u false now hfirst hb
  · intro i hi
    rw [proxyErrorHandler_eq] at hi
    cases hr : ((s.MarkBackendStatus u false now).GetNextPeer now).1 with
    | none => rw [hr] at hi; simp at hi
    | some j =>
      rw [hr] at hi
      by_cases hurl : (((s.MarkBackendStatus u false now).GetNextPeer
          now).2.backends.getD j default).url = u
      · simp only [if_neg (not_not_intro hurl)] at hi
        simp at hi
      · simp only [if_pos hurl, Option.some.injEq] at hi
        subst hi
        refine ⟨rfl, ?_, ?_⟩
        · exact getNextPeer_some_isAlive
            (s.MarkBackendStatus u false now) now j hr
        · rw [hback] at hurl
          exact hurl
  · rw [proxyErrorHandler_eq]
    cases hr : ((s.MarkBackendStatus u false now).GetNextPeer now).1 with
    | none => simp
    | some j =>
      by_cases hurl : (((s.MarkBackendStatus u false now).GetNextPeer
          now).2.backends.getD j default).url = u
      · simp only [if_neg (not_not_intro hurl)]
        simp only [true_iff]
        right
        refine ⟨j, rfl, ?_⟩
        rw [hback] at hurl
        exact hurl
      · simp only [if_pos hurl]
        simp only [reduceCtorEq, false_iff]
        push_neg
        refine ⟨by simp, ?_⟩
        intro i hi
        simp only [Option.some.injEq] at hi
        subst hi
        rw [hback] at hurl
        exact hurl
  · intro fails fuel s' i hfail
    exact serveVia_chains fails now fuel s' i hfail

/-- C2 counterexample: with three eligible backends that all fail forwarding,
one request entering at backend 1 is retried twice — the attempted backends
are 1, then 2, then 0 — before the terminal 503, refuting "a single failover
hop with no further retries for that request". -/
theorem errorHandler_single_hop_counterexample :
    (handleRequest wPoolAllAlive (fun _ => true) 0
        { method := "GET", path := "/" }).1 = [1, 2, 0] ∧
    (handleRequest wPoolAllAlive (fun _ => true) 0
        { method := "GET", path := "/" }).2.1 = false := by
  constructor <;> rfl

/-- C2 witness: the amended failover characterization instantiated on the
all-alive pool with backend 1's URL failing; its hypotheses (the pool split
around the failing backend, and the failure oracle) discharged concretely. -/
theorem errorHandler_failover_spec_witness :
    ((wPoolAllAlive.MarkBackendStatus "http://app2:8080" false 0).backends =
      [ { url := "http://app1:8080", alive := true, failureCount := 0, lastCheck := 0 }
      ] ++ Backend.SetAlive
            { url := "http://app2:8080", alive := true, failureCount := 0, lastCheck := 0 }
            false 0 ::
        [ { url := "http://app3:8080", alive := true, failureCount := 0, lastCheck := 0 } ]) ∧
    (∀ i, (proxyErrorHandler wPoolAllAlive "http://app2:8080" 0).1 = some i →
      ((wPoolAllAlive.MarkBackendStatus "http://app2:8080" false 0).GetNextPeer 0).1
        = some i) := by
  have h := errorHandler_failover_spec wPoolAllAlive "http://app2:8080" 0
  constructor
  · exact h.1
      [ { url := "http://app1:8080", alive := true, failureCount := 0, lastCheck := 0 } ]
      { url := "http://app2:8080", alive := true, failureCount := 0, lastCheck := 0 }
      [ { url := "http://app3:8080", alive := true, failureCount := 0, lastCheck := 0 } ]
      (by decide) (by decide) (by decide)
  · intro i hi
    exact (h.2.1 i hi).1

end LoadBalancer
